import Mathlib

/-!
Verification development for the connection core of the cpp-driver
repository (files `src/client_connection.hpp` and
`cpp-driver/src/request_queue.hpp`).

The C++ code is shallowly embedded: each handler of `ClientConnection`
becomes a pure Lean function from a connection value (and the incoming
message or event) to an updated connection value together with the list
of observable effects it performs, in program order.  Every `state_ = X`
assignment in the source emits an `Effect.enterState X`, every callback
invocation emits the corresponding effect, `assert(false)` emits
`Effect.assertionFailure`, and a dereference of a null
`MessageFutureImpl*` emits `Effect.nullDerefCrash` (execution stops at a
crash, so no later effect of the same handler is emitted).

`stream_storage.hpp`, `message.hpp` and `request_queue.cpp` are not part
of the available sources; the components they define (`StreamStorage`,
the frame assembler, `RequestQueue::handle_flush`) are modelled from the
specification, as marked in their doc comments.
-/

namespace CppDriver

/-- The macro `CASS_STREAM_ID_MAX = 127` from `client_connection.hpp`. -/
def CASS_STREAM_ID_MAX : Nat := 127

/-- Positional element lookup on lists, used for slot-table reasoning. -/
def nth {α : Type} : List α → Nat → Option α
  | [], _ => none
  | a :: _, 0 => some a
  | _ :: t, n + 1 => nth t n

theorem nth_lt_length {α : Type} {l : List α} {i : Nat} {a : α} (h : nth l i = some a) :
    i < l.length := by
  induction l generalizing i with
  | nil => simp [nth] at h
  | cons b t ih =>
    cases i with
    | zero => simp
    | succ n =>
      simp only [nth] at h
      exact Nat.succ_lt_succ (ih h)

theorem nth_set_self {α : Type} {l : List α} {i : Nat} (a : α) (h : i < l.length) :
    nth (l.set i a) i = some a := by
  induction l generalizing i with
  | nil => simp at h
  | cons b t ih =>
    cases i with
    | zero => simp [nth]
    | succ n =>
      simp only [List.set, nth]
      exact ih (Nat.lt_of_succ_lt_succ h)

theorem nth_set_ne {α : Type} {l : List α} {i j : Nat} (a : α) (h : i ≠ j) :
    nth (l.set i a) j = nth l j := by
  induction l generalizing i j with
  | nil => simp [List.set]
  | cons b t ih =>
    cases i with
    | zero =>
      cases j with
      | zero => exact absurd rfl h
      | succ m => simp [List.set, nth]
    | succ n =>
      cases j with
      | zero => simp [List.set, nth]
      | succ m =>
        simp only [List.set, nth]
        exact ih fun hnm => h (congrArg Nat.succ hnm)

/-- Modelled from the spec: `StreamStorage` (`stream_storage.hpp` is not
among the available sources; `client_connection.hpp` instantiates it as
`StreamStorage<Stream, MessageFutureImpl*, CASS_STREAM_ID_MAX>`).
Per spec section 3 and 4.1 it is a fixed-size slot table of capacity 128
(stream ids 0..127) mapping a stream id to the stored request value.  A
free slot holds `none`; an occupied slot holds `some v`. -/
structure StreamStorage (V : Type) where
  slots : List (Option V)
deriving DecidableEq

/-- The freshly constructed storage: all 128 slots free. -/
def StreamStorage.empty (V : Type) : StreamStorage V :=
  ⟨List.replicate (CASS_STREAM_ID_MAX + 1) none⟩

/-- Modelled from the spec: the allocation policy "picks any free slot
(policy: lowest free id, for deterministic testing)". -/
def findFree {V : Type} : List (Option V) → Option Nat
  | [] => none
  | none :: _ => some 0
  | some _ :: rest => (findFree rest).map (· + 1)

/-- Modelled from the spec: `acquire(pending) -> StreamId | Exhausted`
(the C++ name is `set_stream(request, stream&)`).  Stores the value in
the lowest free slot and returns its id; `none` is the `Exhausted`
backpressure result when no slot is free. -/
def StreamStorage.set_stream {V : Type} (s : StreamStorage V) (v : V) :
    Option (Nat × StreamStorage V) :=
  match findFree s.slots with
  | none => none
  | some id => some (id, ⟨s.slots.set id (some v)⟩)

/-- Modelled from the spec: `release(id) -> PendingRequest | NotFound`
(the C++ name is `get_stream(stream, storage&)`).  Removes and returns
the occupant; `none` is the `NotFound` result for a never-acquired or
already-released id. -/
def StreamStorage.get_stream {V : Type} (s : StreamStorage V) (id : Nat) :
    Option (V × StreamStorage V) :=
  match nth s.slots id with
  | some (some v) => some (v, ⟨s.slots.set id none⟩)
  | _ => none

/-- Number of occupied slots. -/
def StreamStorage.occupied_count {V : Type} (s : StreamStorage V) : Nat :=
  s.slots.countP fun o => o.isSome

/-- The `available_streams()` count: number of free slots. -/
def StreamStorage.available_streams {V : Type} (s : StreamStorage V) : Nat :=
  s.slots.countP fun o => o.isNone

/-- Whether slot `i` of the table is occupied. -/
def occAt {V : Type} (s : StreamStorage V) (i : Nat) : Bool :=
  match nth s.slots i with
  | some (some _) => true
  | _ => false

/-- A sequence of `set_stream` calls with no intervening releases,
returning the id allocated for each value (`none` = `Exhausted`). -/
def acquireIds {V : Type} (s : StreamStorage V) : List V → List (Option Nat)
  | [] => []
  | v :: vs =>
    match s.set_stream v with
    | none => none :: acquireIds s vs
    | some (id, s') => some id :: acquireIds s' vs

theorem findFree_free {V : Type} {l : List (Option V)} {i : Nat} (h : findFree l = some i) :
    nth l i = some none := by
  induction l generalizing i with
  | nil => exact absurd h (by simp [findFree])
  | cons o t ih =>
    cases o with
    | none =>
      have h0 : (some 0 : Option Nat) = some i := h
      injection h0 with h0
      subst h0
      rfl
    | some v =>
      have h' : (findFree t).map (· + 1) = some i := h
      obtain ⟨j, hj, rfl⟩ := Option.map_eq_some'.mp h'
      simpa [nth] using ih hj

theorem findFree_lt_length {V : Type} {l : List (Option V)} {i : Nat}
    (h : findFree l = some i) : i < l.length :=
  nth_lt_length (findFree_free h)

theorem set_stream_fresh {V : Type} {s s' : StreamStorage V} {v : V} {sid : Nat}
    (h : s.set_stream v = some (sid, s')) : occAt s sid = false := by
  unfold StreamStorage.set_stream at h
  cases hf : findFree s.slots with
  | none => simp [hf] at h
  | some j =>
    simp [hf] at h
    obtain ⟨rfl, _⟩ := h
    simp [occAt, findFree_free hf]

theorem set_stream_occupies {V : Type} {s s' : StreamStorage V} {v : V} {sid : Nat}
    (h : s.set_stream v = some (sid, s')) : occAt s' sid = true := by
  unfold StreamStorage.set_stream at h
  cases hf : findFree s.slots with
  | none => simp [hf] at h
  | some j =>
    simp [hf] at h
    obtain ⟨rfl, rfl⟩ := h
    simp [occAt, nth_set_self (some v) (findFree_lt_length hf)]

theorem set_stream_preserves {V : Type} {s s' : StreamStorage V} {v : V} {sid j : Nat}
    (h : s.set_stream v = some (sid, s')) (hj : occAt s j = true) : occAt s' j = true := by
  unfold StreamStorage.set_stream at h
  cases hf : findFree s.slots with
  | none => simp [hf] at h
  | some k =>
    simp [hf] at h
    obtain ⟨rfl, rfl⟩ := h
    by_cases hij : k = j
    · subst hij
      simp [occAt, findFree_free hf] at hj
    · simpa [occAt, nth_set_ne (some v) hij] using hj

theorem acquireIds_avoids_occupied {V : Type} {s : StreamStorage V} {j : Nat}
    (vs : List V) (hj : occAt s j = true) :
    some j ∉ acquireIds s vs := by
  induction vs generalizing s with
  | nil => simp [acquireIds]
  | cons v vs ih =>
    unfold acquireIds
    cases hset : s.set_stream v with
    | none =>
      simp only [List.mem_cons]
      rintro (h | h)
      · exact Option.noConfusion h
      · exact ih hj h
    | some p =>
      obtain ⟨sid, s'⟩ := p
      simp only [List.mem_cons]
      rintro (h | h)
      · injection h with h
        subst h
        rw [set_stream_fresh hset] at hj
        exact Bool.noConfusion hj
      · exact ih (set_stream_preserves hset hj) h

theorem acquireIds_nodup {V : Type} (s : StreamStorage V) (vs : List V) :
    (acquireIds s vs).filterMap id |>.Nodup := by
  induction vs generalizing s with
  | nil => simp [acquireIds]
  | cons v vs ih =>
    unfold acquireIds
    cases hset : s.set_stream v with
    | none => simpa using ih s
    | some p =>
      obtain ⟨sid, s'⟩ := p
      show (sid :: (acquireIds s' vs).filterMap id).Nodup
      refine List.nodup_cons.mpr ⟨?_, ih s'⟩
      intro hmem
      obtain ⟨o, ho, hido⟩ := List.mem_filterMap.mp hmem
      have hos : o = some sid := hido
      subst hos
      exact acquireIds_avoids_occupied vs (set_stream_occupies hset) ho

set_option maxRecDepth 100000 in
/-- Claim C3: the stream allocator never hands out the id of an
occupied slot: across any sequence of acquires with no releases the
successful ids are pairwise distinct; from the empty table the first 128
acquires all succeed (with ids 0..127) and the 129th returns
`Exhausted`. -/
theorem C3_stream_allocator_unique_ids_capacity_128 :
    (∀ (V : Type) (s : StreamStorage V) (vs : List V),
      ((acquireIds s vs).filterMap id).Nodup)
    ∧ acquireIds (StreamStorage.empty Unit) (List.replicate 128 ()) =
        (List.range 128).map some
    ∧ acquireIds (StreamStorage.empty Unit) (List.replicate 129 ()) =
        (List.range 128).map some ++ [none] := by
  refine ⟨fun V s vs => acquireIds_nodup s vs, ?_, ?_⟩ <;> decide

/-- The enum `ClientConnection::ClientConnectionState` from `client_connection.hpp`. -/
inductive CState
  | new
  | connected
  | handshake
  | supported
  | ready
  | disconnecting
  | disconnected
deriving DecidableEq

/-- Enumeration order of `ClientConnectionState`, used for the
`state_ < CLIENT_STATE_READY` comparison in `on_error`. -/
def CState.toNat : CState → Nat
  | .new => 0
  | .connected => 1
  | .handshake => 2
  | .supported => 3
  | .ready => 4
  | .disconnecting => 5
  | .disconnected => 6

/-- The CQL opcodes dispatched by `ClientConnection::consume` plus the
request opcodes sent by the connection; any opcode outside the four
response cases falls into `consume`'s `default: assert(false)`. -/
inductive Opcode
  | error
  | startup
  | ready
  | options
  | supported
  | result
  | query
deriving DecidableEq

/-- The `Result::kind` values distinguished by `on_result`:
`CASS_RESULT_KIND_SET_KEYSPACE`, `CASS_RESULT_KIND_PREPARED`, and
everything else (rows/void/..., the `default` branch). -/
inductive ResultKind
  | setKeyspace
  | prepared
  | rows
deriving DecidableEq

/-- Identity of a `MessageFutureImpl` (the pending-request future the
stream table stores a pointer to).  A stored pointer may be null:
`execute` is called with `request = NULL` for OPTIONS/STARTUP/USE
messages, so the slot value type is `Option PendingId`. -/
abbrev PendingId := Nat

/-- The routing-relevant part of a fully assembled inbound `Message`:
opcode, stream id (signed: negative ids are server-initiated events)
and, for RESULT frames, the result kind of the body. -/
structure Msg where
  opcode : Opcode
  stream : Int
  kind : ResultKind
deriving DecidableEq

/-- Observable actions of a `ClientConnection` handler, in program
order.  `assertionFailure` is an `assert(false)` being hit;
`nullDerefCrash` is a dereference of a null `MessageFutureImpl*`
(undefined behaviour); both abort the handler, so no later effect of the
same handler follows them. -/
inductive Effect
  | enterState (s : CState)
  | tcpConnectRequested
  | readStarted
  | sslReadWriteDriven
  | sent (op : Opcode) (stream : Nat)
  | socketCloseRequested
  | connectCbSuccess
  | connectCbFailure
  | keyspaceChanged
  | prepareCb
  | pendingNotified (stream : Nat)
  | requestFinished
  | assertionFailure
  | nullDerefCrash
deriving DecidableEq

/-- The `ClientConnection` state relevant to routing and correlation:
protocol state, stream table, whether an `SSLSession` was supplied, and
which of the callbacks registered through `init` are non-null. -/
structure ClientConnection where
  state : CState
  stream_storage : StreamStorage (Option PendingId)
  ssl : Bool
  connectCb : Bool
  requestFinishedCb : Bool
  keyspaceCb : Bool
deriving DecidableEq

/-- The connection as built by the constructor: `CLIENT_STATE_NEW`,
empty stream table, all callbacks null. -/
def mkConnection (ssl : Bool) : ClientConnection :=
  { state := .new
    stream_storage := StreamStorage.empty (Option PendingId)
    ssl := ssl
    connectCb := false
    requestFinishedCb := false
    keyspaceCb := false }

/-- The trailing `if (request_finished_callback_) request_finished_callback_(this)`
call used by `on_result`. -/
def requestFinishedEffects (c : ClientConnection) : List Effect :=
  if c.requestFinishedCb then [Effect.requestFinished] else []

/-- Embeds `ClientConnection::connect`: initialises the socket and requests the
TCP connect whose completion later fires `on_connect`.  No state
assignment happens here. -/
def ClientConnection.connect (c : ClientConnection) : ClientConnection × List Effect :=
  (c, [Effect.tcpConnectRequested])

/-- Embeds `ClientConnection::notify_ready`: invokes the connection-established
callback (with a null error) if one is registered. -/
def ClientConnection.notify_ready (c : ClientConnection) : ClientConnection × List Effect :=
  (c, if c.connectCb then [Effect.connectCbSuccess] else [])

/-- Embeds `ClientConnection::notify_error`: invokes the connection callback
with an error if one is registered. -/
def ClientConnection.notify_error (c : ClientConnection) : ClientConnection × List Effect :=
  (c, if c.connectCb then [Effect.connectCbFailure] else [])

/-- Embeds `ClientConnection::execute`: asks the stream table for a slot via
`set_stream(request, message->stream)` — unconditionally, also when
`request` is `NULL` — and on success serialises and sends the frame.  On
`Exhausted` the error is returned to the caller without sending
(message body serialisation is the opaque framer collaborator and is
modelled as always succeeding). -/
def ClientConnection.execute (c : ClientConnection) (op : Opcode)
    (request : Option PendingId) : ClientConnection × List Effect :=
  match c.stream_storage.set_stream request with
  | none => (c, [])
  | some (sid, st) => ({ c with stream_storage := st }, [Effect.sent op sid])

/-- Embeds `ClientConnection::send_options`: sends the OPTIONS message with
`request = NULL`. -/
def ClientConnection.send_options (c : ClientConnection) : ClientConnection × List Effect :=
  c.execute .options none

/-- Embeds `ClientConnection::send_startup`: sends the STARTUP message with
`request = NULL`. -/
def ClientConnection.send_startup (c : ClientConnection) : ClientConnection × List Effect :=
  c.execute .startup none

/-- Embeds `ClientConnection::set_keyspace`: builds a `USE <keyspace>` QUERY
message and sends it through `execute` with `request = NULL`. -/
def ClientConnection.set_keyspace (c : ClientConnection) : ClientConnection × List Effect :=
  c.execute .query none

/-- Embeds `ClientConnection::ssl_handshake`: with no `SSLSession` it sets
`CLIENT_STATE_HANDSHAKE` and calls `event_received()`; that nested
dispatch sees the just-assigned handshake state and therefore runs
`send_options` (inlined here so the definition is structurally
recursive-free).  With SSL it pumps the handshake bytes through
`on_read`/`ssl_->read_write` (the opaque transport-security
collaborator). -/
def ClientConnection.ssl_handshake (c : ClientConnection) : ClientConnection × List Effect :=
  if c.ssl then
    (c, [Effect.sslReadWriteDriven])
  else
    let c' := { c with state := CState.handshake }
    let r := c'.send_options
    (r.1, Effect.enterState CState.handshake :: r.2)

/-- Embeds `ClientConnection::event_received`: dispatch on the current state.
Any state outside the five listed cases (in particular `DISCONNECTING`
and `DISCONNECTED`) hits `default: assert(false)`. -/
def ClientConnection.event_received (c : ClientConnection) : ClientConnection × List Effect :=
  match c.state with
  | .new => c.connect
  | .connected => c.ssl_handshake
  | .handshake => c.send_options
  | .supported => c.send_startup
  | .ready => c.notify_ready
  | _ => (c, [Effect.assertionFailure])

/-- Embeds `ClientConnection::init`: registers the three callbacks, then calls
`event_received()`. -/
def ClientConnection.init (c : ClientConnection)
    (connect requestFinished keyspace : Bool) : ClientConnection × List Effect :=
  ClientConnection.event_received
    { c with connectCb := connect, requestFinishedCb := requestFinished,
             keyspaceCb := keyspace }

/-- Embeds `ClientConnection::on_connect`: on failure notifies the connection
callback and returns; on success starts reading, sets
`CLIENT_STATE_CONNECTED` and calls `event_received()`. -/
def ClientConnection.on_connect (c : ClientConnection) (status : Int) :
    ClientConnection × List Effect :=
  if status = -1 then
    c.notify_error
  else
    let c' := { c with state := CState.connected }
    let r := c'.event_received
    (r.1, Effect.readStarted :: Effect.enterState CState.connected :: r.2)

/-- Embeds `ClientConnection::close`: sets `CLIENT_STATE_DISCONNECTING` and
requests the socket close whose completion fires `on_close`. -/
def ClientConnection.close (c : ClientConnection) : ClientConnection × List Effect :=
  ({ c with state := CState.disconnecting },
   [Effect.enterState CState.disconnecting, Effect.socketCloseRequested])

/-- Embeds `ClientConnection::on_close`: sets `CLIENT_STATE_DISCONNECTED` and
calls `event_received()` (which has no case for that state). -/
def ClientConnection.on_close (c : ClientConnection) : ClientConnection × List Effect :=
  let c' := { c with state := CState.disconnected }
  let r := c'.event_received
  (r.1, Effect.enterState CState.disconnected :: r.2)

/-- Embeds `ClientConnection::on_supported`: frees the response, sets
`CLIENT_STATE_SUPPORTED` and calls `event_received()`. -/
def ClientConnection.on_supported (c : ClientConnection) (_ : Msg) :
    ClientConnection × List Effect :=
  let c' := { c with state := CState.supported }
  let r := c'.event_received
  (r.1, Effect.enterState CState.supported :: r.2)

/-- Embeds `ClientConnection::on_ready`: frees the response, sets
`CLIENT_STATE_READY` and calls `event_received()`. -/
def ClientConnection.on_ready (c : ClientConnection) (_ : Msg) :
    ClientConnection × List Effect :=
  let c' := { c with state := CState.ready }
  let r := c'.event_received
  (r.1, Effect.enterState CState.ready :: r.2)

/-- Embeds `ClientConnection::on_error`: when `state_ < CLIENT_STATE_READY`
notifies the connection-level callback with a server error; in every
state it then only frees the response — in particular in `READY` state
the stream id is never looked up and no pending request is resolved. -/
def ClientConnection.on_error (c : ClientConnection) (_ : Msg) :
    ClientConnection × List Effect :=
  if c.state.toNat < CState.ready.toNat then c.notify_error else (c, [])

/-- Embeds `ClientConnection::on_result`: dispatch on the result kind.
A SET_KEYSPACE result only fires the keyspace callback; PREPARED and the
default kind correlate via `get_stream`.  When `get_stream` fails the
local `request` pointer is still null and `request->error.reset(error)`
dereferences it; when the stored pointer itself is null,
`request->result.reset(...)`/`request->notify(...)` dereference it.  The
trailing request-finished callback runs only when no crash occurred. -/
def ClientConnection.on_result (c : ClientConnection) (m : Msg) :
    ClientConnection × List Effect :=
  match m.kind with
  | .setKeyspace =>
      (c, (if c.keyspaceCb then [Effect.keyspaceChanged] else [])
            ++ requestFinishedEffects c)
  | .prepared =>
      match c.stream_storage.get_stream m.stream.toNat with
      | none => (c, [Effect.nullDerefCrash])
      | some (none, _) => (c, [Effect.nullDerefCrash])
      | some (some _, st) =>
          ({ c with stream_storage := st },
           [Effect.pendingNotified m.stream.toNat, Effect.prepareCb]
             ++ requestFinishedEffects c)
  | .rows =>
      match c.stream_storage.get_stream m.stream.toNat with
      | none => (c, [Effect.nullDerefCrash])
      | some (none, _) => (c, [Effect.nullDerefCrash])
      | some (some _, st) =>
          ({ c with stream_storage := st },
           [Effect.pendingNotified m.stream.toNat]
             ++ requestFinishedEffects c)

/-- The dispatch `ClientConnection::consume` performs for each fully
assembled message: negative stream ids (server events) hit
`assert(false)`; otherwise the opcode switch routes to the four
handlers, with `default: assert(false)` for any other opcode. -/
def ClientConnection.handleMessage (c : ClientConnection) (m : Msg) :
    ClientConnection × List Effect :=
  if m.stream < 0 then
    (c, [Effect.assertionFailure])
  else
    match m.opcode with
    | .supported => c.on_supported m
    | .error => c.on_error m
    | .ready => c.on_ready m
    | .result => c.on_result m
    | _ => (c, [Effect.assertionFailure])

/-- A Ready connection with all callbacks registered and no outstanding
request. -/
def connReadyEmpty : ClientConnection :=
  { state := .ready
    stream_storage := StreamStorage.empty (Option PendingId)
    ssl := false
    connectCb := true
    requestFinishedCb := true
    keyspaceCb := true }

/-- A Ready connection with one outstanding pending request (future 42)
occupying stream slot 0. -/
def connReadyPending0 : ClientConnection :=
  { connReadyEmpty with
    stream_storage :=
      ⟨(StreamStorage.empty (Option PendingId)).slots.set 0 (some (some 42))⟩ }

/-- A Ready connection with one outstanding pending request (future 7)
occupying stream slot 5. -/
def connReadyPending5 : ClientConnection :=
  { connReadyEmpty with
    stream_storage :=
      ⟨(StreamStorage.empty (Option PendingId)).slots.set 5 (some (some 7))⟩ }

/-- A connection still in the handshake phase (state preceding Ready),
callbacks registered. -/
def connHandshakeCb : ClientConnection :=
  { connReadyEmpty with state := .handshake }

/-- A connection in Supported state, callbacks registered, empty
stream table. -/
def connSupportedCb : ClientConnection :=
  { connReadyEmpty with state := .supported }

/-- End-to-end run of spec scenario 1: fresh plaintext connection,
`init`, then the connect-completion event, a SUPPORTED frame and a READY
frame, with all effects concatenated in order. -/
def handshakeTrace : ClientConnection × List Effect :=
  let r1 := (mkConnection false).init true true true
  let r2 := r1.1.on_connect 0
  let r3 := r2.1.handleMessage ⟨Opcode.supported, 0, ResultKind.rows⟩
  let r4 := r3.1.handleMessage ⟨Opcode.ready, 1, ResultKind.rows⟩
  (r4.1, r1.2 ++ r2.2 ++ r3.2 ++ r4.2)

/-- The sequence of protocol states a run passes through: the starting
state followed by every state assignment in effect order. -/
def visitedStates (start : CState) (es : List Effect) : List CState :=
  start :: es.filterMap fun e =>
    match e with
    | Effect.enterState s => some s
    | _ => none

/-- Claim C1 (code bug): on a Ready connection with one outstanding
pending request, `close()` does set Disconnecting and `on_close` does
set Disconnected, but the close completion then runs `event_received()`,
which hits `default: assert(false)`; no pending request is resolved, no
request-finished notification fires, and the stream slot stays
occupied. -/
theorem C1_close_asserts_and_drains_nothing :
    connReadyPending0.stream_storage.occupied_count = 1
    ∧ connReadyPending0.close.1.state = CState.disconnecting
    ∧ connReadyPending0.close.2 =
        [Effect.enterState CState.disconnecting, Effect.socketCloseRequested]
    ∧ connReadyPending0.close.1.on_close.1.state = CState.disconnected
    ∧ connReadyPending0.close.1.on_close.2 =
        [Effect.enterState CState.disconnected, Effect.assertionFailure]
    ∧ connReadyPending0.close.1.on_close.1.stream_storage.occupied_count = 1 := by
  decide

/-- Claim C2 (code bug): a RESULT frame whose stream id has no occupant
does make the stream-table lookup fail (`NotFound`), but `on_result`
then dereferences the still-null `request` pointer instead of reporting
a protocol error and closing: the connection state is unchanged and no
close is requested. -/
theorem C2_unknown_stream_id_null_deref :
    connReadyEmpty.stream_storage.get_stream 90 = none
    ∧ connReadyEmpty.handleMessage ⟨Opcode.result, 90, ResultKind.rows⟩ =
        (connReadyEmpty, [Effect.nullDerefCrash]) := by
  decide

/-- Claim C4 (code bug): an ERROR frame in a state preceding Ready does
notify the connection-level callback, but an ERROR frame in Ready state
is only freed: the stream id is never correlated, the pending request at
that stream stays unresolved and the stream slot stays occupied. -/
theorem C4_server_error_in_ready_never_resolved :
    connHandshakeCb.handleMessage ⟨Opcode.error, 0, ResultKind.rows⟩ =
        (connHandshakeCb, [Effect.connectCbFailure])
    ∧ connReadyPending5.handleMessage ⟨Opcode.error, 5, ResultKind.rows⟩ =
        (connReadyPending5, [])
    ∧ connReadyPending5.stream_storage.occupied_count = 1 := by
  decide

/-- Claim C5 (code bug): a frame with a negative (server-event) stream
id and a frame with an opcode outside the dispatch switch both hit
`assert(false)` in `consume`: the connection is left unchanged and no
close is forced. -/
theorem C5_malformed_frames_hit_assert :
    connReadyEmpty.handleMessage ⟨Opcode.result, -1, ResultKind.rows⟩ =
        (connReadyEmpty, [Effect.assertionFailure])
    ∧ connReadyEmpty.handleMessage ⟨Opcode.query, 3, ResultKind.rows⟩ =
        (connReadyEmpty, [Effect.assertionFailure]) := by
  decide

/-- Claim C6 counterexample: sending the driver-internal OPTIONS frame
does occupy a stream-storage slot — `execute` calls `set_stream` even
with a null request, so the occupied count rises from 0 to 1 and slot 0
holds a null occupant. -/
theorem C6_counterexample_options_occupies_slot :
    connHandshakeCb.stream_storage.occupied_count = 0
    ∧ connHandshakeCb.send_options.1.stream_storage.occupied_count = 1
    ∧ nth connHandshakeCb.send_options.1.stream_storage.slots 0 = some (some none) := by
  decide

/-- No effect list produced by `execute` contains a pending-request
notification: `execute` only allocates and sends. -/
theorem pendingNotified_not_in_execute (c : ClientConnection) (op : Opcode)
    (r : Option PendingId) (i : Nat) :
    Effect.pendingNotified i ∉ (c.execute op r).2 := by
  unfold ClientConnection.execute
  cases c.stream_storage.set_stream r with
  | none => simp
  | some p =>
    obtain ⟨sid, st⟩ := p
    simp

/-- Claim C6, amended: SUPPORTED and READY response frames only drive
state transitions — their handlers never resolve or notify a pending
request through the stream table — and the driver-internal OPTIONS and
STARTUP frames are sent with a null request pointer; however they do
occupy a stream-storage slot each (holding a null occupant). -/
theorem C6_control_frames_drive_state_only :
    (∀ (c : ClientConnection) (m : Msg) (i : Nat),
        Effect.pendingNotified i ∉ (c.on_supported m).2
        ∧ Effect.pendingNotified i ∉ (c.on_ready m).2)
    ∧ (∀ c : ClientConnection,
        c.send_options = c.execute Opcode.options none
        ∧ c.send_startup = c.execute Opcode.startup none)
    ∧ nth connSupportedCb.send_startup.1.stream_storage.slots 0 = some (some none) := by
  refine ⟨?_, fun c => ⟨rfl, rfl⟩, by decide⟩
  intro c m i
  have hsup : (c.on_supported m).2 =
      Effect.enterState CState.supported ::
        ({ c with state := CState.supported }.send_startup).2 := rfl
  have hrdy : (c.on_ready m).2 =
      Effect.enterState CState.ready ::
        ({ c with state := CState.ready }.notify_ready).2 := rfl
  constructor
  · rw [hsup]
    simp only [List.mem_cons]
    rintro (h | h)
    · exact Effect.noConfusion h
    · exact pendingNotified_not_in_execute _ _ _ _ h
  · rw [hrdy]
    simp only [ClientConnection.notify_ready, List.mem_cons]
    rintro (h | h)
    · exact Effect.noConfusion h
    · cases hc : c.connectCb <;> simp [hc] at h

/-- Claim C7: with encryption disabled, after the connect-completion
event, a SUPPORTED frame and a READY frame (in that order) the
connection's state passes through New, Connected, Supported, Ready in
order (the full assignment trace also visits the transient Handshake
state between Connected and Supported), ends in Ready, and the
connection-established callback fires. -/
theorem C7_plaintext_handshake_reaches_ready :
    handshakeTrace.1.state = CState.ready
    ∧ visitedStates CState.new handshakeTrace.2 =
        [CState.new, CState.connected, CState.handshake, CState.supported, CState.ready]
    ∧ List.Sublist
        [CState.new, CState.connected, CState.supported, CState.ready]
        (visitedStates CState.new handshakeTrace.2)
    ∧ Effect.connectCbSuccess ∈ handshakeTrace.2 := by
  decide

/-- Claim C10: a SET_KEYSPACE result only fires the keyspace-changed
callback and the request-finished notification: the frame's stream id is
never looked up or released, so the connection (in particular its stream
table, including the slot occupied by the originating USE request) is
unchanged and no pending request is notified. -/
theorem C10_set_keyspace_result_side_channel :
    (∀ (c : ClientConnection) (s : Int), 0 ≤ s →
        c.keyspaceCb = true → c.requestFinishedCb = true →
        c.handleMessage ⟨Opcode.result, s, ResultKind.setKeyspace⟩ =
          (c, [Effect.keyspaceChanged, Effect.requestFinished]))
    ∧ nth connReadyEmpty.set_keyspace.1.stream_storage.slots 0 = some (some none)
    ∧ (connReadyEmpty.set_keyspace.1.handleMessage
          ⟨Opcode.result, 0, ResultKind.setKeyspace⟩).1.stream_storage =
        connReadyEmpty.set_keyspace.1.stream_storage := by
  refine ⟨?_, by decide, by decide⟩
  intro c s hs hk hrf
  simp [ClientConnection.handleMessage, ClientConnection.on_result,
    requestFinishedEffects, hk, hrf, Int.not_lt.mpr hs]

/-- Witness for C10: the general statement applied to a concrete Ready
connection and stream id 3. -/
theorem C10_witness :
    connReadyEmpty.handleMessage ⟨Opcode.result, 3, ResultKind.setKeyspace⟩ =
      (connReadyEmpty, [Effect.keyspaceChanged, Effect.requestFinished]) :=
  C10_set_keyspace_result_side_channel.1 connReadyEmpty 3 (by decide) (by decide)
    (by decide)

/-- A complete wire frame: opcode byte, stream id byte and body, per
spec section 6 ("an opcode byte, a signed 8-bit stream id ... and a
length-prefixed body"). -/
structure Frame where
  opcode : Nat
  stream : Nat
  body : List Nat
deriving DecidableEq

/-- Big-endian 4-byte length prefix. -/
def encodeLen (n : Nat) : List Nat :=
  [n / 16777216 % 256, n / 65536 % 256, n / 256 % 256, n % 256]

/-- Decode the 4-byte length prefix. -/
def decodeLen : List Nat → Nat
  | [a, b, c, d] => ((a * 256 + b) * 256 + c) * 256 + d
  | _ => 0

/-- Wire bytes of a frame: 6-byte header (opcode, stream, 4-byte length)
followed by the body. -/
def encodeFrame (f : Frame) : List Nat :=
  f.opcode :: f.stream :: (encodeLen f.body.length ++ f.body)

/-- Modelled from the spec: the FrameAssembler (`Message::consume` of
the missing `message.hpp`).  Its only cross-frame state is the
in-progress partial buffer of the current frame. -/
structure FrameAssembler where
  buf : List Nat
deriving DecidableEq

/-- Whether a buffered byte sequence is one complete frame: the 6-byte
header has arrived and the buffer holds exactly the body length it
announces. -/
def frameComplete (buf : List Nat) : Bool :=
  decide (6 ≤ buf.length ∧ buf.length = 6 + decodeLen ((buf.drop 2).take 4))

/-- Reinterpret a completed buffer as a frame. -/
def mkFrame (buf : List Nat) : Frame :=
  ⟨buf.getD 0 0, buf.getD 1 0, buf.drop 6⟩

/-- Feed one byte: append it to the partial buffer; if that completes a
frame, emit it and restart with an empty buffer. -/
def FrameAssembler.feedByte (a : FrameAssembler) (b : Nat) :
    FrameAssembler × Option Frame :=
  if frameComplete (a.buf ++ [b]) then (⟨[]⟩, some (mkFrame (a.buf ++ [b])))
  else (⟨a.buf ++ [b]⟩, none)

/-- Feed a chunk of bytes one byte at a time, collecting completed
frames in order. -/
def FrameAssembler.feed (a : FrameAssembler) : List Nat → FrameAssembler × List Frame
  | [] => (a, [])
  | b :: bs =>
    (((a.feedByte b).1.feed bs).1,
      (a.feedByte b).2.toList ++ ((a.feedByte b).1.feed bs).2)

/-- Feed a sequence of chunks, collecting completed frames in order. -/
def FrameAssembler.feedChunks (a : FrameAssembler) :
    List (List Nat) → FrameAssembler × List Frame
  | [] => (a, [])
  | ch :: chs =>
    (((a.feed ch).1.feedChunks chs).1,
      (a.feed ch).2 ++ ((a.feed ch).1.feedChunks chs).2)

theorem feed_append (a : FrameAssembler) (xs ys : List Nat) :
    a.feed (xs ++ ys) =
      (((a.feed xs).1.feed ys).1, (a.feed xs).2 ++ ((a.feed xs).1.feed ys).2) := by
  induction xs generalizing a with
  | nil => simp [FrameAssembler.feed]
  | cons b bs ih =>
    simp only [List.cons_append, FrameAssembler.feed, List.append_eq]
    rw [ih]
    simp [List.append_assoc]

theorem feedChunks_flatten (a : FrameAssembler) (chunks : List (List Nat)) :
    a.feedChunks chunks = a.feed chunks.flatten := by
  induction chunks generalizing a with
  | nil => simp [FrameAssembler.feedChunks, FrameAssembler.feed]
  | cons ch chs ih =>
    simp only [FrameAssembler.feedChunks, List.flatten_cons, feed_append]
    rw [ih]

theorem decodeLen_encodeLen {n : Nat} (h : n < 4294967296) :
    decodeLen (encodeLen n) = n := by
  simp only [encodeLen, decodeLen]
  omega

theorem frameComplete_short {buf : List Nat} (h : buf.length < 6) :
    frameComplete buf = false := by
  unfold frameComplete
  apply decide_eq_false
  intro hc
  omega

theorem feed_cons_incomplete (a : FrameAssembler) (b : Nat) (bs : List Nat)
    (h : frameComplete (a.buf ++ [b]) = false) :
    a.feed (b :: bs) = FrameAssembler.feed ⟨a.buf ++ [b]⟩ bs := by
  simp [FrameAssembler.feed, FrameAssembler.feedByte, h]

theorem feed_run_to_complete (rest : List Nat) : ∀ (cur : List Nat),
    6 ≤ cur.length →
    cur.length + rest.length = 6 + decodeLen ((cur.drop 2).take 4) →
    rest ≠ [] →
    FrameAssembler.feed ⟨cur⟩ rest = (⟨[]⟩, [mkFrame (cur ++ rest)]) := by
  induction rest with
  | nil => intro cur _ _ hne; exact absurd rfl hne
  | cons b rest ih =>
    intro cur hcur hlen _
    have hdrop : ((cur ++ [b]).drop 2).take 4 = (cur.drop 2).take 4 := by
      rw [List.drop_append_of_le_length (by omega)]
      rw [List.take_append_of_le_length (by simp; omega)]
    cases rest with
    | nil =>
      have hcomplete : frameComplete (cur ++ [b]) = true := by
        unfold frameComplete
        apply decide_eq_true
        rw [hdrop]
        simp only [List.length_append, List.length_cons, List.length_nil] at hlen ⊢
        omega
      simp [FrameAssembler.feed, FrameAssembler.feedByte, hcomplete]
    | cons b2 rest2 =>
      have hincomplete : frameComplete (cur ++ [b]) = false := by
        unfold frameComplete
        apply decide_eq_false
        intro hcon
        rw [hdrop] at hcon
        simp only [List.length_append, List.length_cons, List.length_nil] at hcon hlen
        omega
      have hstep : FrameAssembler.feed ⟨cur⟩ (b :: b2 :: rest2) =
          FrameAssembler.feed ⟨cur ++ [b]⟩ (b2 :: rest2) :=
        feed_cons_incomplete ⟨cur⟩ b (b2 :: rest2) hincomplete
      have h1 : 6 ≤ (cur ++ [b]).length := by simp; omega
      have h2 : (cur ++ [b]).length + (b2 :: rest2).length =
          6 + decodeLen (((cur ++ [b]).drop 2).take 4) := by
        rw [hdrop]
        simp only [List.length_append, List.length_cons, List.length_nil] at hlen ⊢
        omega
      rw [hstep, ih (cur ++ [b]) h1 h2 (by simp)]
      simp [List.append_assoc]

theorem feed_header_then_body (op st l3 l2 l1 l0 : Nat) (body : List Nat)
    (hlen : decodeLen [l3, l2, l1, l0] = body.length) :
    FrameAssembler.feed ⟨[]⟩ (op :: st :: l3 :: l2 :: l1 :: l0 :: body) =
      (⟨[]⟩, [⟨op, st, body⟩]) := by
  have e1 : FrameAssembler.feed ⟨[]⟩ (op :: st :: l3 :: l2 :: l1 :: l0 :: body) =
      FrameAssembler.feed ⟨[op]⟩ (st :: l3 :: l2 :: l1 :: l0 :: body) :=
    feed_cons_incomplete ⟨[]⟩ op _ (frameComplete_short (by simp))
  have e2 : FrameAssembler.feed ⟨[op]⟩ (st :: l3 :: l2 :: l1 :: l0 :: body) =
      FrameAssembler.feed ⟨[op, st]⟩ (l3 :: l2 :: l1 :: l0 :: body) :=
    feed_cons_incomplete ⟨[op]⟩ st _ (frameComplete_short (by simp))
  have e3 : FrameAssembler.feed ⟨[op, st]⟩ (l3 :: l2 :: l1 :: l0 :: body) =
      FrameAssembler.feed ⟨[op, st, l3]⟩ (l2 :: l1 :: l0 :: body) :=
    feed_cons_incomplete ⟨[op, st]⟩ l3 _ (frameComplete_short (by simp))
  have e4 : FrameAssembler.feed ⟨[op, st, l3]⟩ (l2 :: l1 :: l0 :: body) =
      FrameAssembler.feed ⟨[op, st, l3, l2]⟩ (l1 :: l0 :: body) :=
    feed_cons_incomplete ⟨[op, st, l3]⟩ l2 _ (frameComplete_short (by simp))
  have e5 : FrameAssembler.feed ⟨[op, st, l3, l2]⟩ (l1 :: l0 :: body) =
      FrameAssembler.feed ⟨[op, st, l3, l2, l1]⟩ (l0 :: body) :=
    feed_cons_incomplete ⟨[op, st, l3, l2]⟩ l1 _ (frameComplete_short (by simp))
  rw [e1, e2, e3, e4, e5]
  have hdt : (([op, st, l3, l2, l1, l0] : List Nat).drop 2).take 4 =
      [l3, l2, l1, l0] := rfl
  cases body with
  | nil =>
    have hcomplete : frameComplete [op, st, l3, l2, l1, l0] = true := by
      unfold frameComplete
      apply decide_eq_true
      rw [hdt, hlen]
      simp
    have e6 : FrameAssembler.feed ⟨[op, st, l3, l2, l1]⟩ [l0] =
        (⟨[]⟩, [mkFrame [op, st, l3, l2, l1, l0]]) := by
      simp [FrameAssembler.feed, FrameAssembler.feedByte, hcomplete]
    rw [e6]
    simp [mkFrame]
  | cons b bs =>
    have hincomplete : frameComplete [op, st, l3, l2, l1, l0] = false := by
      unfold frameComplete
      apply decide_eq_false
      intro hcon
      rw [hdt, hlen] at hcon
      simp at hcon
    have e6 : FrameAssembler.feed ⟨[op, st, l3, l2, l1]⟩ (l0 :: b :: bs) =
        FrameAssembler.feed ⟨[op, st, l3, l2, l1, l0]⟩ (b :: bs) :=
      feed_cons_incomplete ⟨[op, st, l3, l2, l1]⟩ l0 _ hincomplete
    rw [e6, feed_run_to_complete (b :: bs) [op, st, l3, l2, l1, l0] (by simp)
      (by rw [hdt, hlen]; simp) (by simp)]
    simp [mkFrame]

theorem feed_encodeFrame (f : Frame) (h : f.body.length < 4294967296) :
    FrameAssembler.feed ⟨[]⟩ (encodeFrame f) = (⟨[]⟩, [f]) := by
  obtain ⟨op, st, body⟩ := f
  have hlen : decodeLen [body.length / 16777216 % 256, body.length / 65536 % 256,
      body.length / 256 % 256, body.length % 256] = body.length := by
    simpa [encodeLen] using decodeLen_encodeLen (n := body.length) h
  simpa [encodeFrame, encodeLen] using
    feed_header_then_body op st (body.length / 16777216 % 256)
      (body.length / 65536 % 256) (body.length / 256 % 256) (body.length % 256)
      body hlen

/-- Claim C8: the frame assembler is chunking-invariant — feeding any
list of chunks equals feeding their concatenation byte-for-byte — and a
complete frame's byte sequence, delivered under any chunking whatsoever
(single-byte chunks included), reproduces exactly that frame and leaves
the assembler back in its initial (empty-buffer) state. -/
theorem C8_assembler_chunking_invariant :
    (∀ (a : FrameAssembler) (chunks : List (List Nat)),
        a.feedChunks chunks = a.feed chunks.flatten)
    ∧ (∀ (f : Frame) (chunks : List (List Nat)),
        f.body.length < 4294967296 →
        chunks.flatten = encodeFrame f →
        FrameAssembler.feedChunks ⟨[]⟩ chunks = (⟨[]⟩, [f])) := by
  refine ⟨feedChunks_flatten, ?_⟩
  intro f chunks hlen hjoin
  rw [feedChunks_flatten, hjoin]
  exact feed_encodeFrame f hlen

/-- Witness for C8: the frame (opcode 8, stream 3, body [1, 2])
delivered one byte at a time is reassembled exactly. -/
theorem C8_witness :
    FrameAssembler.feedChunks ⟨[]⟩ [[8], [3], [0], [0], [0], [2], [1], [2]] =
      (⟨[]⟩, [⟨8, 3, [1, 2]⟩]) :=
  C8_assembler_chunking_invariant.2 ⟨8, 3, [1, 2]⟩
    [[8], [3], [0], [0], [0], [2], [1], [2]] (by decide) (by decide)

/-- Identity of a `PooledConnection*` target of a queued write. -/
abbrev ConnId := Nat

/-- Identity of a `RequestCallback*`. -/
abbrev CallbackId := Nat

/-- Embeds `RequestQueue::Item`: a `(connection, callback)` pair queued by
`write`. -/
structure Item where
  connection : ConnId
  callback : CallbackId
deriving DecidableEq

/-- Outcome of one `handle_flush` drain cycle: the per-item writes
performed (in drain order) and the deduplicated set of connections for
which a flush is then requested (`Set connections_`, modelled as the
insertion-ordered duplicate-free list). -/
structure FlushResult where
  writes : List (ConnId × CallbackId)
  connections : List ConnId
deriving DecidableEq

/-- One item being drained: its frame is written on its connection and
the connection is inserted into the dedup set unless already present. -/
def flushStep (acc : FlushResult) (it : Item) : FlushResult :=
  { writes := acc.writes ++ [(it.connection, it.callback)]
    connections :=
      if it.connection ∈ acc.connections then acc.connections
      else acc.connections ++ [it.connection] }

/-- Modelled from the spec: `RequestQueue::handle_flush`
(`request_queue.cpp` is not among the available sources; only the class
declaration in `request_queue.hpp` is).  Per spec section 4.3 it drains
all currently-enqueued items, writes each item's frame on its
connection, collects every touched connection in the dedup set, and
afterwards requests exactly one flush per distinct connection in that
set. -/
def handle_flush (items : List Item) : FlushResult :=
  items.foldl flushStep ⟨[], []⟩

theorem flush_foldl_writes_length (items : List Item) :
    ∀ acc : FlushResult,
      (items.foldl flushStep acc).writes.length = acc.writes.length + items.length := by
  induction items with
  | nil => intro acc; simp
  | cons it items ih =>
    intro acc
    simp only [List.foldl_cons, ih, flushStep, List.length_append, List.length_cons]
    simp
    omega

theorem flush_foldl_connections_stable (c : ConnId) (items : List Item) :
    ∀ acc : FlushResult,
      (∀ it ∈ items, it.connection = c) →
      acc.connections = [c] →
      (items.foldl flushStep acc).connections = [c] := by
  induction items with
  | nil => intro acc _ hacc; simpa using hacc
  | cons it items ih =>
    intro acc hall hacc
    have hc : it.connection = c := hall it (by simp)
    have hstep : (flushStep acc it).connections = [c] := by
      simp [flushStep, hacc, hc]
    exact ih (flushStep acc it) (fun x hx => hall x (by simp [hx])) hstep

theorem flush_foldl_connections_nodup (items : List Item) :
    ∀ acc : FlushResult,
      acc.connections.Nodup →
      (items.foldl flushStep acc).connections.Nodup := by
  induction items with
  | nil => intro acc h; simpa using h
  | cons it items ih =>
    intro acc h
    refine ih (flushStep acc it) ?_
    by_cases hmem : it.connection ∈ acc.connections
    · simpa [flushStep, hmem] using h
    · simp only [flushStep, hmem, if_false]
      simpa [List.nodup_append] using ⟨h, fun hx => hmem hx⟩

/-- Claim C9: when all the items of one drain cycle target the same
connection, `handle_flush` writes every item's frame individually (one
write per item, in order) but requests exactly one flush for that
connection; and in any drain cycle the dedup set never holds a
connection more than once. -/
theorem C9_flush_coalescing (c : ConnId) (items : List Item)
    (hne : items ≠ []) (hall : ∀ it ∈ items, it.connection = c) :
    (handle_flush items).writes.length = items.length
    ∧ (handle_flush items).connections = [c]
    ∧ ∀ more : List Item, (handle_flush more).connections.Nodup := by
  refine ⟨?_, ?_, fun more => flush_foldl_connections_nodup more ⟨[], []⟩ (by simp)⟩
  · simpa using flush_foldl_writes_length items ⟨[], []⟩
  · cases items with
    | nil => exact absurd rfl hne
    | cons it items =>
      have hc : it.connection = c := hall it (by simp)
      have hstep : (flushStep ⟨[], []⟩ it).connections = [c] := by
        simp [flushStep, hc]
      exact flush_foldl_connections_stable c items (flushStep ⟨[], []⟩ it)
        (fun x hx => hall x (by simp [hx])) hstep

/-- Witness for C9: three items targeting connection 4 produce three
writes and a single flush request for connection 4. -/
theorem C9_witness :
    (handle_flush [⟨4, 10⟩, ⟨4, 11⟩, ⟨4, 12⟩]).writes.length = 3
    ∧ (handle_flush [⟨4, 10⟩, ⟨4, 11⟩, ⟨4, 12⟩]).connections = [4]
    ∧ ∀ more : List Item, (handle_flush more).connections.Nodup :=
  C9_flush_coalescing 4 [⟨4, 10⟩, ⟨4, 11⟩, ⟨4, 12⟩] (by decide) (by decide)

end CppDriver
